import Mathlib

/-!
Verification of the gorpitx process-supervision core (Go repository
psyb0t/gorpitx and its vendored psyb0t/commander package) against its
natural-language specification.

The Go code is shallowly embedded: each Go function that the claims
touch becomes a pure Lean function over explicit state.  OS-level
effects (the result of `cmd.Wait()`, whether a signal could be
delivered, whether a pipe could be created) are inputs drawn from small
environment structures, so that every branch of the Go source is a
branch of the Lean definition.  Concurrency primitives are embedded by
their sequential specifications: `sync.Once` serialises its callers and
runs the body at most once, so a fold over a call sequence models any
interleaving of callers; channel sends with `select`/`default` are
total functions on a channel state.
-/

namespace Commander

/-- Classification of the error value returned by the Go `cmd.Wait()`
primitive, as inspected by `isTerminatedBySignal`, `isKilledBySignal`
and `isHarmlessWaitError` (process.go).
`ok` is a nil error (clean exit); `exitTerm` an `ExitError` whose wait
status says terminated-by-SIGTERM; `exitKill` terminated-by-SIGKILL;
`harmless` an error whose text contains "waitid: no child processes";
`other` any other non-nil error. -/
inductive WaitErr where
  | ok
  | exitTerm
  | exitKill
  | harmless
  | other
  deriving DecidableEq, Repr

/-- State of the one-shot wait guard of a process handle:
`cmdWaitOnce sync.Once`, the stored `cmdWaitResult`, and (ghost) the
number of times the underlying `cmd.Wait()` primitive has actually been
invoked. -/
structure WaitState where
  waitDone : Bool
  storedResult : WaitErr
  invocations : Nat
  deriving DecidableEq, Repr

/-- A fresh process handle: `cmd.Wait()` not yet invoked. -/
def initWaitState : WaitState :=
  { waitDone := false, storedResult := WaitErr.ok, invocations := 0 }

/-- Embedding of `process.cmdWait` (process.go): the body guarded by
`cmdWaitOnce.Do` invokes the OS wait primitive once and stores its
result; every caller then reads the stored result after `waitCh` is
closed.  `osResult` is the value the OS primitive returns for this
process.  `sync.Once` serialises concurrent callers, so a sequence of
applications of this function models any set of concurrent callers. -/
def cmdWait (osResult : WaitErr) (s : WaitState) : WaitState × WaitErr :=
  if s.waitDone then
    (s, s.storedResult)
  else
    ({ waitDone := true, storedResult := osResult,
       invocations := s.invocations + 1 }, osResult)

/-- Runs `n` successive `cmdWait` callers against the handle state,
returning the final state and each caller's observed result (in call
order). -/
def cmdWaitCalls (osResult : WaitErr) (s : WaitState) : Nat → WaitState × List WaitErr
  | 0 => (s, [])
  | n + 1 =>
    let (s1, r) := cmdWait osResult s
    let (s2, rs) := cmdWaitCalls osResult s1 n
    (s2, r :: rs)


/-- Outcome of a shutdown path, i.e. the Go error value returned by
`killProcess` / `forceKill` / `Stop` (process_lifecycle.go).
`ok` is a nil error; `errTerminated` is `commonerrors.ErrTerminated`;
`errKilled` is `commonerrors.ErrKilled`; `errKillFailed` is the wrapped
"failed to force kill process" error; `errOther e` is any other
(possibly wrapped) error carrying the wait classification `e`. -/
inductive Outcome where
  | ok
  | errTerminated
  | errKilled
  | errKillFailed
  | errOther (e : WaitErr)
  deriving DecidableEq, Repr

/-- OS-level environment a shutdown runs against.  Each field answers
one question the Go code asks the operating system:
* `hasPid` — `p.cmd.Process != nil`;
* `termSignalOk` — `p.cmd.Process.Signal(syscall.SIGTERM)` returns nil;
* `exitsWithinGrace` — in the `select` between the wait result and the
  grace-period timer, the wait result arrives first;
* `graceWaitErr` — the `cmdWait` classification seen in that race;
* `killReqProcessDone` — `p.cmd.Process.Kill()` fails with
  `os.ErrProcessDone` (process already gone);
* `killReqOtherErr` — `p.cmd.Process.Kill()` fails with any other error;
* `killWaitErr` — the `cmdWait` classification after SIGKILL. -/
structure KillEnv where
  hasPid : Bool
  termSignalOk : Bool
  exitsWithinGrace : Bool
  graceWaitErr : WaitErr
  killReqProcessDone : Bool
  killReqOtherErr : Bool
  killWaitErr : WaitErr
  deriving DecidableEq, Repr

/-- Embedding of `process.forceKill` (process_lifecycle.go): send
SIGKILL; `os.ErrProcessDone` from the kill request means the process is
already gone and is treated as success (nil); any other kill-request
error is a wrapped failure; otherwise wait for exit and classify —
killed-by-SIGKILL, a harmless "no child processes" wait error, and even
a clean exit all yield `ErrKilled`, while a SIGTERM or other wait error
is wrapped. -/
def forceKill (env : KillEnv) : Outcome :=
  if env.killReqProcessDone then
    Outcome.ok
  else if env.killReqOtherErr then
    Outcome.errKillFailed
  else
    match env.killWaitErr with
    | WaitErr.exitKill => Outcome.errKilled
    | WaitErr.harmless => Outcome.errKilled
    | WaitErr.ok => Outcome.errKilled
    | WaitErr.exitTerm => Outcome.errOther WaitErr.exitTerm
    | WaitErr.other => Outcome.errOther WaitErr.other

/-- Result of `killProcess` together with ghost observations of which
process-control actions the run performed: whether the SIGTERM request
was made, and whether `forceKill` was invoked. -/
structure KillResult where
  outcome : Outcome
  sigtermRequested : Bool
  forceKillInvoked : Bool
  deriving DecidableEq, Repr

/-- Embedding of `process.killProcess` (process_lifecycle.go).
`timeout ≤ 0` skips graceful termination and force-kills immediately;
otherwise SIGTERM is requested (falling back to `forceKill` if the
request fails), and the process's exit races the grace timer: an exit
within the grace period is classified (harmless → nil, SIGTERM →
`ErrTerminated`, SIGKILL → `ErrKilled`, otherwise the raw wait error),
while an elapsed grace period escalates to `forceKill`. -/
def killProcess (timeout : Int) (env : KillEnv) : KillResult :=
  if timeout ≤ 0 then
    { outcome := forceKill env, sigtermRequested := false, forceKillInvoked := true }
  else if ¬ env.termSignalOk then
    { outcome := forceKill env, sigtermRequested := true, forceKillInvoked := true }
  else if env.exitsWithinGrace then
    { outcome :=
        match env.graceWaitErr with
        | WaitErr.harmless => Outcome.ok
        | WaitErr.exitTerm => Outcome.errTerminated
        | WaitErr.exitKill => Outcome.errKilled
        | WaitErr.ok => Outcome.ok
        | WaitErr.other => Outcome.errOther WaitErr.other,
      sigtermRequested := true, forceKillInvoked := false }
  else
    { outcome := forceKill env, sigtermRequested := true, forceKillInvoked := true }

/-- State of the one-shot shutdown guard of a process handle:
`stopOnce sync.Once` plus ghost observations — how many times the
guarded body has actually run, and whether `doneCh` and the stream
channels have been closed by it. -/
structure StopState where
  stopDone : Bool
  bodyRuns : Nat
  doneChClosed : Bool
  streamsClosed : Bool
  deriving DecidableEq, Repr

/-- A fresh process handle: shutdown not yet requested. -/
def initStopState : StopState :=
  { stopDone := false, bodyRuns := 0, doneChClosed := false, streamsClosed := false }

/-- Embedding of `process.Stop` (process_lifecycle.go).  The body —
kill the process when it has a PID, cancel the timeout, close `doneCh`,
close the stream channels — is guarded by `stopOnce.Do`.  The returned
error is the local `stopErr` variable of the calling invocation: only
the invocation whose call actually runs the body assigns it, so when
the guard has already fired the caller gets nil (`Outcome.ok`) back,
whatever the first invocation returned.  `sync.Once` blocks concurrent
callers until the single body execution completes, so a sequence of
applications models any set of concurrent callers. -/
def stop (timeout : Int) (env : KillEnv) (s : StopState) : StopState × Outcome :=
  if s.stopDone then
    (s, Outcome.ok)
  else
    let killOutcome :=
      if env.hasPid then (killProcess timeout env).outcome else Outcome.ok
    ({ stopDone := true, bodyRuns := s.bodyRuns + 1,
       doneChClosed := true, streamsClosed := true }, killOutcome)

/-- Runs a sequence of `Stop` callers (each with its own grace period
and OS environment) against the handle state, returning the final state
and the error each caller observes, in call order.  `sync.Once`
serialises concurrent callers, so this models any interleaving. -/
def stopCalls (s : StopState) : List (Int × KillEnv) → StopState × List Outcome
  | [] => (s, [])
  | c :: cs =>
    let r := stop c.1 c.2 s
    let rest := stopCalls r.1 cs
    (rest.1, r.2 :: rest.2)

/-- Environment a `Start` call runs against: whether each pipe can be
created and whether the process can be spawned. -/
structure StartEnv where
  stdoutPipeOk : Bool
  stderrPipeOk : Bool
  spawnOk : Bool
  deriving DecidableEq, Repr

/-- The wrapped error `Start` returns on each failure branch. -/
inductive StartError where
  | stdoutPipeFailed
  | stderrPipeFailed
  | startFailed
  deriving DecidableEq, Repr

/-- Ghost record of which background goroutines a `Start` call has
launched. -/
structure BackgroundTasks where
  stdoutReader : Bool
  stderrReader : Bool
  broadcaster : Bool
  deriving DecidableEq, Repr

/-- No background goroutine launched. -/
def noTasks : BackgroundTasks :=
  { stdoutReader := false, stderrReader := false, broadcaster := false }

/-- Embedding of `process.Start` (process_lifecycle.go): create the
stdout pipe, then the stderr pipe, then spawn the process, returning a
wrapped error immediately at the first failure; only after a successful
spawn does it launch the two pipe-reader goroutines and the
`discardInternalOutput` broadcaster goroutine. -/
def start (env : StartEnv) : Option StartError × BackgroundTasks :=
  if ¬ env.stdoutPipeOk then
    (some StartError.stdoutPipeFailed, noTasks)
  else if ¬ env.stderrPipeOk then
    (some StartError.stderrPipeFailed, noTasks)
  else if ¬ env.spawnOk then
    (some StartError.startFailed, noTasks)
  else
    (none, { stdoutReader := true, stderrReader := true, broadcaster := true })

/-- A listener sink channel (a Go `chan string` registered through
`Stream`).  `id` identifies the channel object; `received` is the
history of lines successfully sent into it; `free` is the number of
immediate sends it can still absorb (buffer space or waiting
receivers); `active` records whether the registry still points at it —
the source marks a failed sink inactive by overwriting its registry
slot with nil, which is modelled here as `active := false` so that the
channel's receive history stays observable. -/
structure Chan where
  id : Nat
  received : List String
  free : Nat
  active : Bool
  deriving DecidableEq, Repr

/-- A fresh sink channel able to absorb `free` immediate sends. -/
def mkChan (id : Nat) (free : Nat) : Chan :=
  { id := id, received := [], free := free, active := true }

/-- One non-blocking delivery attempt (the `select`/`default` send in
`broadcastToStdout` / `broadcastToStderr`, process_streaming.go): a
sink already marked inactive is skipped; a sink with room receives the
line immediately; a sink with no room is marked inactive and receives
nothing. -/
def chanDeliver (line : String) (ch : Chan) : Chan :=
  if ch.active then
    if 0 < ch.free then
      { ch with received := ch.received ++ [line], free := ch.free - 1 }
    else
      { ch with active := false }
  else
    ch

/-- A listener registration: the optional stdout and stderr sinks of
one `Stream` call (`streamChannels`, process.go).  `none` means the
caller passed nil for that side. -/
structure StreamChannels where
  stdout : Option Chan
  stderr : Option Chan
  deriving DecidableEq, Repr

/-- Embedding of the per-registration step of `broadcastToStdout`
(process_streaming.go): a nil stdout sink is skipped, otherwise one
non-blocking delivery attempt is made on it; the stderr sink of the
pair is untouched. -/
def deliverStdout (line : String) (e : StreamChannels) : StreamChannels :=
  { e with stdout := e.stdout.map (chanDeliver line) }

/-- Embedding of the per-registration step of `broadcastToStderr`
(process_streaming.go), symmetric to `deliverStdout`. -/
def deliverStderr (line : String) (e : StreamChannels) : StreamChannels :=
  { e with stderr := e.stderr.map (chanDeliver line) }

/-- Embedding of `broadcastToStdout` (process_streaming.go): under the
registry lock, attempt one non-blocking delivery of `line` to the
stdout sink of every registration.  The source iterates from the last
index down and each slot is updated from its own contents only, so the
loop is a pointwise map over the registry. -/
def broadcastToStdout (line : String) (r : List StreamChannels) : List StreamChannels :=
  r.map (deliverStdout line)

/-- Embedding of `broadcastToStderr` (process_streaming.go). -/
def broadcastToStderr (line : String) (r : List StreamChannels) : List StreamChannels :=
  r.map (deliverStderr line)

/-- The channel ids a single registration contributes to
`closeStreamChannels`: its stdout sink if still registered and active,
then its stderr sink likewise (nil or deactivated sinks are skipped —
in the source they are literally nil in the registry slot). -/
def closeOps (e : StreamChannels) : List Nat :=
  (match e.stdout with
   | some ch => if ch.active then [ch.id] else []
   | none => []) ++
  (match e.stderr with
   | some ch => if ch.active then [ch.id] else []
   | none => [])

/-- Embedding of `closeStreamChannels` (process_streaming.go): under
the registry lock, close every still-registered sink of every
registration, then set the registry to nil.  Returns the list of
channel ids closed (in iteration order) and the new registry. -/
def closeStreamChannels (r : List StreamChannels) : List Nat × List StreamChannels :=
  ((r.map closeOps).flatten, [])

/-- Embedding of `process.Stream` (process_streaming.go): under the
registry lock, append the caller's pair of sinks to the registry.
Lines already broadcast are not replayed — a new registration starts
with whatever its fresh channels already hold (nothing, for the fresh
channels a caller passes). -/
def stream (stdout stderr : Option Chan) (r : List StreamChannels) : List StreamChannels :=
  r ++ [{ stdout := stdout, stderr := stderr }]

/-- One event observed by the broadcaster goroutine, serialised by the
registry lock (`streamMu`): either a stdout line arriving on the
internal queue and being broadcast, a stderr line likewise, or a
`Stream` call registering a new listener pair. -/
inductive BEvent where
  | outLine (s : String)
  | errLine (s : String)
  | register (stdout stderr : Option Chan)
  deriving DecidableEq, Repr

/-- Effect of one serialised event on the listener registry. -/
def stepEvent (r : List StreamChannels) (e : BEvent) : List StreamChannels :=
  match e with
  | BEvent.outLine s => broadcastToStdout s r
  | BEvent.errLine s => broadcastToStderr s r
  | BEvent.register o u => stream o u r

/-- Runs a serialised sequence of broadcast/registration events. -/
def runEvents (r : List StreamChannels) (es : List BEvent) : List StreamChannels :=
  es.foldl stepEvent r

/-- The stdout lines broadcast during an event sequence, in order. -/
def outLines (es : List BEvent) : List String :=
  es.filterMap fun e =>
    match e with
    | BEvent.outLine s => some s
    | _ => none

/-- Evolution of a single registration slot under one event: lines hit
it through the per-slot delivery step, registrations of other pairs
leave it untouched. -/
def entryStep (e : StreamChannels) (ev : BEvent) : StreamChannels :=
  match ev with
  | BEvent.outLine s => deliverStdout s e
  | BEvent.errLine s => deliverStderr s e
  | BEvent.register _ _ => e

/-- Evolution of a single registration slot under an event sequence. -/
def entryRun (e : StreamChannels) (es : List BEvent) : StreamChannels :=
  es.foldl entryStep e

/-- Evolution of a single stdout sink under an event sequence. -/
def chanRun (ch : Chan) (es : List BEvent) : Chan :=
  es.foldl (fun c ev =>
    match ev with
    | BEvent.outLine s => chanDeliver s c
    | _ => c) ch

/-- The stderr lines broadcast during an event sequence, in order. -/
def errLines (es : List BEvent) : List String :=
  es.filterMap fun e =>
    match e with
    | BEvent.errLine s => some s
    | _ => none

/-- Evolution of a single stderr sink under an event sequence. -/
def chanRunErr (ch : Chan) (es : List BEvent) : Chan :=
  es.foldl (fun c ev =>
    match ev with
    | BEvent.errLine s => chanDeliver s c
    | _ => c) ch

end Commander

namespace Gorpitx

/-- The gorpitx module-execution errors (errors.go): `ErrExecuting` is
"RPITX is busy executing another command", `ErrNotExecuting` is "RPITX
is not executing a command". -/
inductive RpitxErr where
  | errUnknownModule
  | errExecuting
  | errNotExecuting
  deriving DecidableEq, Repr

/-- Modelled from the spec: the Single-Flight Executor (`RPITX`) whose
implementation file is not among the sources — only its tests, its
error values and its README are.  Per the spec's data model, the
Execution Slot is "process-wide state tracking is-a-job-currently-
active", a single atomic boolean (`isExecuting atomic.Bool` in the
tests). -/
structure Executor where
  isExecuting : Bool
  deriving DecidableEq, Repr

/-- Modelled from the spec: step 1 of `Exec` — "Atomically test-and-set
the Execution Slot; if already active, fail immediately with a busy
error — no queuing."  Returns the new slot state and whether this
caller acquired it.  The operation is atomic, so any set of concurrent
`Exec` entries is a sequence of these steps. -/
def tryAcquire (e : Executor) : Executor × Bool :=
  if e.isExecuting then
    (e, false)
  else
    ({ isExecuting := true }, true)

/-- Modelled from the spec: step 7 of `Exec` — "Unconditionally clear
the Execution Slot when step 6 returns, whatever the outcome —
success, timeout, or error." -/
def releaseSlot (_ : Executor) : Executor :=
  { isExecuting := false }

/-- What one `Exec` call returns: rejected busy at the slot, or the
classified outcome of a job it ran (success, timeout, termination, or
any other error). -/
inductive ExecResult where
  | busy
  | completed (o : Commander.Outcome)
  deriving DecidableEq, Repr

/-- Modelled from the spec: one `Exec` call on the Executor.  The slot
is test-and-set on entry; a loser returns `ErrExecuting` immediately,
leaving the slot to the active job; the winner runs the job to its
outcome `jobOutcome` (success, timeout, or error, steps 2-6) and the
slot is cleared unconditionally on return (step 7). -/
def execCall (e : Executor) (jobOutcome : Commander.Outcome) : Executor × ExecResult :=
  let a := tryAcquire e
  if a.2 then
    (releaseSlot a.1, ExecResult.completed jobOutcome)
  else
    (a.1, ExecResult.busy)

/-- `n` concurrent `Exec` calls all reaching the test-and-set while no
job finishes in between (so no release separates the attempts):
returns the slot state and how many of them acquired it. -/
def runAcquires (e : Executor) : Nat → Executor × Nat
  | 0 => (e, 0)
  | n + 1 =>
    let a := tryAcquire e
    let rest := runAcquires a.1 n
    (rest.1, (if a.2 then 1 else 0) + rest.2)

/-- Modelled from the spec: `Stop(ctx)` on the Executor "delegates to
the currently active Process Handle if one exists, returning not
executing if the slot is idle".  When a job is active it runs the
process handle's `Stop`. -/
def rpitxStop (e : Executor) (timeout : Int) (env : Commander.KillEnv)
    (s : Commander.StopState) : Commander.StopState × Option RpitxErr × Commander.Outcome :=
  if e.isExecuting then
    let r := Commander.stop timeout env s
    (r.1, none, r.2)
  else
    (s, some RpitxErr.errNotExecuting, Commander.Outcome.ok)

/-- Modelled from the spec: `StreamOutputs(stdout, stderr)` on the
Executor "delegates to the currently active Process Handle if one
exists" and is "a safe no-op" when idle: the test asserts it returns
early without closing or consuming the caller's channels.  The result
is the registry of the active process handle; when idle the call
changes nothing and the caller's channels are left untouched. -/
def rpitxStreamOutputs (e : Executor) (stdout stderr : Option Commander.Chan)
    (registry : List Commander.StreamChannels) : List Commander.StreamChannels :=
  if e.isExecuting then
    Commander.stream stdout stderr registry
  else
    registry

end Gorpitx

namespace Commander

theorem cmdWait_waitDone (osResult : WaitErr) (s : WaitState) :
    ((cmdWait osResult s).1).waitDone = true := by
  unfold cmdWait
  by_cases h : s.waitDone
  · simp [h]
  · simp [h]

theorem cmdWait_of_done (osResult : WaitErr) (s : WaitState)
    (h : s.waitDone = true) : cmdWait osResult s = (s, s.storedResult) := by
  unfold cmdWait
  simp [h]

theorem cmdWaitCalls_of_done (osResult : WaitErr) (s : WaitState)
    (h : s.waitDone = true) :
    ∀ n, cmdWaitCalls osResult s n = (s, List.replicate n s.storedResult) := by
  intro n
  induction n with
  | zero => simp [cmdWaitCalls]
  | succ n ih =>
    simp [cmdWaitCalls, cmdWait_of_done osResult s h, ih, List.replicate]

theorem cmdWaitCalls_fresh (osResult : WaitErr) (n : Nat) :
    cmdWaitCalls osResult initWaitState (n + 1) =
      ({ waitDone := true, storedResult := osResult, invocations := 1 },
        List.replicate (n + 1) osResult) := by
  have hstep : cmdWait osResult initWaitState =
      ({ waitDone := true, storedResult := osResult, invocations := 1 }, osResult) := by
    simp [cmdWait, initWaitState]
  simp [cmdWaitCalls, hstep,
    cmdWaitCalls_of_done osResult
      { waitDone := true, storedResult := osResult, invocations := 1 } rfl n,
    List.replicate]
theorem stop_of_done (timeout : Int) (env : KillEnv) (s : StopState)
    (h : s.stopDone = true) : stop timeout env s = (s, Outcome.ok) := by
  unfold stop
  simp [h]

theorem stop_fresh (timeout : Int) (env : KillEnv) :
    stop timeout env initStopState =
      ({ stopDone := true, bodyRuns := 1, doneChClosed := true, streamsClosed := true },
        if env.hasPid then (killProcess timeout env).outcome else Outcome.ok) := by
  simp [stop, initStopState]
theorem chanDeliver_inactive (line : String) (ch : Chan)
    (h : ch.active = false) : chanDeliver line ch = ch := by
  simp [chanDeliver, h]

theorem chanRun_inactive (ch : Chan) (h : ch.active = false) :
    ∀ es, chanRun ch es = ch := by
  intro es
  induction es generalizing ch with
  | nil => rfl
  | cons ev es ih =>
    cases ev with
    | outLine s =>
      simp only [chanRun, List.foldl_cons]
      rw [chanDeliver_inactive s ch h]
      exact ih ch h
    | errLine s => exact ih ch h
    | register o u => exact ih ch h

theorem chanRun_received (es : List BEvent) :
    ∀ ch : Chan, ch.active = true →
      (chanRun ch es).received = ch.received ++ (outLines es).take ch.free := by
  induction es with
  | nil =>
    intro ch _
    simp [chanRun, outLines]
  | cons ev es ih =>
    intro ch hact
    cases ev with
    | outLine s =>
      have hstep : chanRun ch (BEvent.outLine s :: es) = chanRun (chanDeliver s ch) es := rfl
      rw [hstep]
      by_cases hfree : 0 < ch.free
      · have hdel : chanDeliver s ch =
            { ch with received := ch.received ++ [s], free := ch.free - 1 } := by
          simp [chanDeliver, hact, hfree]
        rw [hdel, ih _ (by simp [hact])]
        obtain ⟨k, hk⟩ : ∃ k, ch.free = k + 1 := ⟨ch.free - 1, (Nat.succ_pred_eq_of_pos hfree).symm⟩
        simp [outLines, hk, List.take_succ_cons, List.append_assoc]
      · have hzero : ch.free = 0 := Nat.eq_zero_of_not_pos hfree
        have hdel : chanDeliver s ch = { ch with active := false } := by
          simp [chanDeliver, hact, hfree]
        rw [hdel, chanRun_inactive _ (by simp) es]
        simp [hzero]
    | errLine s =>
      have hstep : chanRun ch (BEvent.errLine s :: es) = chanRun ch es := rfl
      rw [hstep, ih ch hact]
      simp [outLines]
    | register o u =>
      have hstep : chanRun ch (BEvent.register o u :: es) = chanRun ch es := rfl
      rw [hstep, ih ch hact]
      simp [outLines]

theorem entryRun_stdout_only (es : List BEvent) :
    ∀ ch : Chan, entryRun { stdout := some ch, stderr := none } es =
      { stdout := some (chanRun ch es), stderr := none } := by
  induction es with
  | nil => intro ch; rfl
  | cons ev es ih =>
    intro ch
    cases ev with
    | outLine s =>
      have hstep : entryRun { stdout := some ch, stderr := none } (BEvent.outLine s :: es) =
          entryRun (deliverStdout s { stdout := some ch, stderr := none }) es := rfl
      rw [hstep]
      have hdel : deliverStdout s { stdout := some ch, stderr := none } =
          ({ stdout := some (chanDeliver s ch), stderr := none } : StreamChannels) := by
        simp [deliverStdout]
      rw [hdel, ih (chanDeliver s ch)]
      rfl
    | errLine s =>
      have hstep : entryRun { stdout := some ch, stderr := none } (BEvent.errLine s :: es) =
          entryRun { stdout := some ch, stderr := none } es := by
        simp [entryRun, entryStep, deliverStderr]
      rw [hstep, ih ch]
      rfl
    | register o u =>
      have hstep : entryRun { stdout := some ch, stderr := none } (BEvent.register o u :: es) =
          entryRun { stdout := some ch, stderr := none } es := rfl
      rw [hstep, ih ch]
      rfl

theorem length_stepEvent (r : List StreamChannels) (ev : BEvent) :
    r.length ≤ (stepEvent r ev).length := by
  cases ev with
  | outLine s => simp [stepEvent, broadcastToStdout]
  | errLine s => simp [stepEvent, broadcastToStderr]
  | register o u => simp [stepEvent, stream]

theorem stepEvent_getElem (r : List StreamChannels) (ev : BEvent) (i : Nat)
    (h : i < r.length) : (stepEvent r ev)[i]? = (r[i]?).map (entryStep · ev) := by
  cases ev with
  | outLine s =>
    simp [stepEvent, broadcastToStdout, entryStep, List.getElem?_map]
  | errLine s =>
    simp [stepEvent, broadcastToStderr, entryStep, List.getElem?_map]
  | register o u =>
    simp only [stepEvent, stream, entryStep]
    rw [List.getElem?_append, if_pos h]
    simp

theorem runEvents_getElem (es : List BEvent) :
    ∀ (r : List StreamChannels) (i : Nat) (h : i < r.length),
      (runEvents r es)[i]? = some (entryRun r[i] es) := by
  induction es with
  | nil =>
    intro r i h
    simp [runEvents, entryRun, List.getElem?_eq_getElem h]
  | cons ev es ih =>
    intro r i h
    have h2 : i < (stepEvent r ev).length := Nat.lt_of_lt_of_le h (length_stepEvent r ev)
    have hrun : runEvents r (ev :: es) = runEvents (stepEvent r ev) es := rfl
    rw [hrun, ih (stepEvent r ev) i h2]
    have hget : (stepEvent r ev)[i] = entryStep r[i] ev := by
      have := stepEvent_getElem r ev i h
      rw [List.getElem?_eq_getElem h2, List.getElem?_eq_getElem h] at this
      simpa using this
    rw [hget]
    rfl

theorem runEvents_append (r : List StreamChannels) (es1 es2 : List BEvent) :
    runEvents r (es1 ++ es2) = runEvents (runEvents r es1) es2 := by
  simp [runEvents, List.foldl_append]

theorem stopCalls_of_done (s : StopState) (h : s.stopDone = true) :
    ∀ cs : List (Int × KillEnv),
      stopCalls s cs = (s, List.replicate cs.length Outcome.ok) := by
  intro cs
  induction cs with
  | nil => simp [stopCalls]
  | cons c cs ih =>
    simp [stopCalls, stop_of_done c.1 c.2 s h, ih, List.replicate]

theorem chanRunErr_inactive (ch : Chan) (h : ch.active = false) :
    ∀ es, chanRunErr ch es = ch := by
  intro es
  induction es generalizing ch with
  | nil => rfl
  | cons ev es ih =>
    cases ev with
    | outLine s => exact ih ch h
    | errLine s =>
      simp only [chanRunErr, List.foldl_cons]
      rw [chanDeliver_inactive s ch h]
      exact ih ch h
    | register o u => exact ih ch h

theorem chanRunErr_received (es : List BEvent) :
    ∀ ch : Chan, ch.active = true →
      (chanRunErr ch es).received = ch.received ++ (errLines es).take ch.free := by
  induction es with
  | nil =>
    intro ch _
    simp [chanRunErr, errLines]
  | cons ev es ih =>
    intro ch hact
    cases ev with
    | outLine s =>
      have hstep : chanRunErr ch (BEvent.outLine s :: es) = chanRunErr ch es := rfl
      rw [hstep, ih ch hact]
      simp [errLines]
    | errLine s =>
      have hstep : chanRunErr ch (BEvent.errLine s :: es) =
          chanRunErr (chanDeliver s ch) es := rfl
      rw [hstep]
      by_cases hfree : 0 < ch.free
      · have hdel : chanDeliver s ch =
            { ch with received := ch.received ++ [s], free := ch.free - 1 } := by
          simp [chanDeliver, hact, hfree]
        rw [hdel, ih _ (by simp [hact])]
        obtain ⟨k, hk⟩ : ∃ k, ch.free = k + 1 :=
          ⟨ch.free - 1, (Nat.succ_pred_eq_of_pos hfree).symm⟩
        simp [errLines, hk, List.take_succ_cons, List.append_assoc]
      · have hzero : ch.free = 0 := Nat.eq_zero_of_not_pos hfree
        have hdel : chanDeliver s ch = { ch with active := false } := by
          simp [chanDeliver, hact, hfree]
        rw [hdel, chanRunErr_inactive _ (by simp) es]
        simp [hzero]
    | register o u =>
      have hstep : chanRunErr ch (BEvent.register o u :: es) = chanRunErr ch es := rfl
      rw [hstep, ih ch hact]
      simp [errLines]

theorem entryRun_pair (es : List BEvent) :
    ∀ o u : Option Chan,
      entryRun { stdout := o, stderr := u } es =
        { stdout := o.map (fun ch => chanRun ch es),
          stderr := u.map (fun ch => chanRunErr ch es) } := by
  induction es with
  | nil =>
    intro o u
    cases o <;> cases u <;> rfl
  | cons ev es ih =>
    intro o u
    cases ev with
    | outLine s =>
      have hstep : entryRun { stdout := o, stderr := u } (BEvent.outLine s :: es) =
          entryRun { stdout := o.map (chanDeliver s), stderr := u } es := by
        simp [entryRun, entryStep, deliverStdout]
      rw [hstep, ih (o.map (chanDeliver s)) u]
      cases o <;> cases u <;> rfl
    | errLine s =>
      have hstep : entryRun { stdout := o, stderr := u } (BEvent.errLine s :: es) =
          entryRun { stdout := o, stderr := u.map (chanDeliver s) } es := by
        simp [entryRun, entryStep, deliverStderr]
      rw [hstep, ih o (u.map (chanDeliver s))]
      cases o <;> cases u <;> rfl
    | register a b =>
      have hstep : entryRun { stdout := o, stderr := u } (BEvent.register a b :: es) =
          entryRun { stdout := o, stderr := u } es := rfl
      rw [hstep, ih o u]
      cases o <;> cases u <;> rfl

end Commander

namespace Gorpitx

theorem runAcquires_busy : ∀ n, runAcquires { isExecuting := true } n =
    ({ isExecuting := true }, 0) := by
  intro n
  induction n with
  | zero => rfl
  | succ n ih =>
    simp [runAcquires, tryAcquire, ih]

theorem runAcquires_idle (n : Nat) : runAcquires { isExecuting := false } (n + 1) =
    ({ isExecuting := true }, 1) := by
  simp [runAcquires, tryAcquire, runAcquires_busy n]

end Gorpitx

/-- C2: for every process handle and every number of concurrent callers
that request the terminal result (via `Wait`, the graceful-stop wait in
`killProcess`, or the force-kill wait in `forceKill`, all of which go
through `cmdWait`), the underlying blocking OS wait-for-exit primitive
`cmd.Wait()` is invoked at most once over the lifetime of the handle —
exactly once as soon as there is at least one caller — and every caller
observes the same stored terminal outcome. -/
theorem claim_C2_wait_primitive_invoked_once (osResult : Commander.WaitErr) (n : Nat) :
    ((Commander.cmdWaitCalls osResult Commander.initWaitState n).1).invocations ≤ 1 ∧
      (0 < n →
        ((Commander.cmdWaitCalls osResult Commander.initWaitState n).1).invocations = 1) ∧
      ∀ r ∈ (Commander.cmdWaitCalls osResult Commander.initWaitState n).2, r = osResult := by
  cases n with
  | zero =>
    refine ⟨by simp [Commander.cmdWaitCalls, Commander.initWaitState], ?_, ?_⟩
    · intro h
      exact absurd h (by simp)
    · intro r hr
      simp [Commander.cmdWaitCalls] at hr
  | succ m =>
    rw [Commander.cmdWaitCalls_fresh osResult m]
    refine ⟨le_refl 1, fun _ => rfl, ?_⟩
    intro r hr
    exact List.eq_of_mem_replicate hr

theorem claim_C2_wait_primitive_invoked_once_witness :
    ((Commander.cmdWaitCalls Commander.WaitErr.exitKill Commander.initWaitState 3).1).invocations = 1 :=
  (claim_C2_wait_primitive_invoked_once Commander.WaitErr.exitKill 3).2.1 (by decide)

/-- C3 counterexample: the claim says every invocation of `Stop` after
the first returns the same outcome as the first execution of the
shutdown body.  In the source the returned `stopErr` is a local of each
invocation and is only assigned by the invocation that runs the
`stopOnce` body, so a second `Stop` returns nil even when the first
returned `ErrTerminated`: with a grace period of 5 against a process
that exits within the grace period terminated by SIGTERM, the first
call returns `ErrTerminated` and the second returns nil. -/
theorem claim_C3_counterexample :
    (Commander.stop 5
        { hasPid := true, termSignalOk := true, exitsWithinGrace := true,
          graceWaitErr := Commander.WaitErr.exitTerm, killReqProcessDone := false,
          killReqOtherErr := false, killWaitErr := Commander.WaitErr.exitKill }
        Commander.initStopState).2 = Commander.Outcome.errTerminated ∧
    (Commander.stop 5
        { hasPid := true, termSignalOk := true, exitsWithinGrace := true,
          graceWaitErr := Commander.WaitErr.exitTerm, killReqProcessDone := false,
          killReqOtherErr := false, killWaitErr := Commander.WaitErr.exitKill }
        (Commander.stop 5
          { hasPid := true, termSignalOk := true, exitsWithinGrace := true,
            graceWaitErr := Commander.WaitErr.exitTerm, killReqProcessDone := false,
            killReqOtherErr := false, killWaitErr := Commander.WaitErr.exitKill }
          Commander.initStopState).1).2 = Commander.Outcome.ok ∧
    Commander.Outcome.ok ≠ Commander.Outcome.errTerminated := by
  decide

/-- C3 as amended: once shutdown has been invoked by any path, the
shutdown body executes exactly once across all concurrent and
subsequent callers (sync.Once blocks concurrent callers until the
single execution completes); the caller whose invocation runs the body
observes the kill outcome, while every other caller — concurrent or
subsequent — gets a no-op returning nil, not the outcome of the first
execution. -/
theorem claim_C3_stop_once_amended (c : Int × Commander.KillEnv)
    (cs : List (Int × Commander.KillEnv)) :
    ((Commander.stopCalls Commander.initStopState (c :: cs)).1).bodyRuns = 1 ∧
    ((Commander.stopCalls Commander.initStopState (c :: cs)).1).stopDone = true ∧
    (Commander.stopCalls Commander.initStopState (c :: cs)).2 =
      (if c.2.hasPid then (Commander.killProcess c.1 c.2).outcome else Commander.Outcome.ok)
        :: List.replicate cs.length Commander.Outcome.ok := by
  have hfirst := Commander.stop_fresh c.1 c.2
  have hrest := Commander.stopCalls_of_done
      { stopDone := true, bodyRuns := 1, doneChClosed := true, streamsClosed := true }
      rfl cs
  refine ⟨?_, ?_, ?_⟩ <;>
    simp [Commander.stopCalls, hfirst, hrest]

/-- C4: the first `Stop` on a running process with grace period ≤ 0
performs no SIGTERM request at all and yields the forceful-kill
outcome; and with a positive grace period, when the SIGTERM request is
delivered and the process exits within the grace period terminated by
that signal, the result is the graceful `ErrTerminated` outcome and the
forceful-kill path is never invoked. -/
theorem claim_C4_grace_period_semantics (t : Int) (env : Commander.KillEnv) :
    (t ≤ 0 → Commander.killProcess t env =
      { outcome := Commander.forceKill env, sigtermRequested := false,
        forceKillInvoked := true }) ∧
    (0 < t → env.termSignalOk = true → env.exitsWithinGrace = true →
      env.graceWaitErr = Commander.WaitErr.exitTerm →
      Commander.killProcess t env =
        { outcome := Commander.Outcome.errTerminated, sigtermRequested := true,
          forceKillInvoked := false }) := by
  constructor
  · intro h
    simp [Commander.killProcess, h]
  · intro ht hsig hexit hterm
    simp [Commander.killProcess, Int.not_le.mpr ht, hsig, hexit, hterm]

theorem claim_C4_grace_period_semantics_witness :
    Commander.killProcess 5
        { hasPid := true, termSignalOk := true, exitsWithinGrace := true,
          graceWaitErr := Commander.WaitErr.exitTerm, killReqProcessDone := false,
          killReqOtherErr := false, killWaitErr := Commander.WaitErr.exitKill } =
      { outcome := Commander.Outcome.errTerminated, sigtermRequested := true,
        forceKillInvoked := false } :=
  (claim_C4_grace_period_semantics 5
    { hasPid := true, termSignalOk := true, exitsWithinGrace := true,
      graceWaitErr := Commander.WaitErr.exitTerm, killReqProcessDone := false,
      killReqOtherErr := false, killWaitErr := Commander.WaitErr.exitKill }).2
    (by decide) rfl rfl rfl

/-- C7: during forceful kill, a process that is already gone counts as
success — `os.ErrProcessDone` from the SIGKILL request yields a nil
(success) result, and a harmless "no child processes" error from the
subsequent wait is classified as a successful kill (`ErrKilled`);
otherwise the path waits for exit and classifies a SIGKILL-terminated
wait status as forcefully-killed (`ErrKilled`). -/
theorem claim_C7_forcekill_already_gone (env : Commander.KillEnv) :
    (env.killReqProcessDone = true → Commander.forceKill env = Commander.Outcome.ok) ∧
    (env.killReqProcessDone = false → env.killReqOtherErr = false →
      env.killWaitErr = Commander.WaitErr.harmless →
      Commander.forceKill env = Commander.Outcome.errKilled) ∧
    (env.killReqProcessDone = false → env.killReqOtherErr = false →
      env.killWaitErr = Commander.WaitErr.exitKill →
      Commander.forceKill env = Commander.Outcome.errKilled) := by
  refine ⟨?_, ?_, ?_⟩
  · intro h
    simp [Commander.forceKill, h]
  · intro h1 h2 h3
    simp [Commander.forceKill, h1, h2, h3]
  · intro h1 h2 h3
    simp [Commander.forceKill, h1, h2, h3]

theorem claim_C7_forcekill_already_gone_witness :
    Commander.forceKill
        { hasPid := true, termSignalOk := true, exitsWithinGrace := false,
          graceWaitErr := Commander.WaitErr.ok, killReqProcessDone := false,
          killReqOtherErr := false, killWaitErr := Commander.WaitErr.harmless } =
      Commander.Outcome.errKilled :=
  (claim_C7_forcekill_already_gone
    { hasPid := true, termSignalOk := true, exitsWithinGrace := false,
      graceWaitErr := Commander.WaitErr.ok, killReqProcessDone := false,
      killReqOtherErr := false, killWaitErr := Commander.WaitErr.harmless }).2.1
    rfl rfl rfl

/-- C8: whenever stdout-pipe creation, stderr-pipe creation, or the
process spawn fails, `Start` returns an error immediately and no
background goroutine (stdout reader, stderr reader, broadcaster) is
started; the three background goroutines are launched exactly when the
spawn succeeded, i.e. when `Start` returns nil. -/
theorem claim_C8_start_failure_no_tasks (env : Commander.StartEnv) :
    ((env.stdoutPipeOk = false ∨ env.stderrPipeOk = false ∨ env.spawnOk = false) →
      ((Commander.start env).1.isSome = true ∧ (Commander.start env).2 = Commander.noTasks)) ∧
    ((Commander.start env).1 = none ↔
      env.stdoutPipeOk = true ∧ env.stderrPipeOk = true ∧ env.spawnOk = true) ∧
    ((Commander.start env).1 = none →
      (Commander.start env).2 =
        { stdoutReader := true, stderrReader := true, broadcaster := true }) := by
  obtain ⟨a, b, c⟩ := env
  cases a <;> cases b <;> cases c <;>
    simp [Commander.start, Commander.noTasks]

theorem claim_C8_start_failure_no_tasks_witness :
    (Commander.start { stdoutPipeOk := true, stderrPipeOk := false, spawnOk := true }).1.isSome = true ∧
    (Commander.start { stdoutPipeOk := true, stderrPipeOk := false, spawnOk := true }).2 = Commander.noTasks :=
  (claim_C8_start_failure_no_tasks
    { stdoutPipeOk := true, stderrPipeOk := false, spawnOk := true }).1
    (Or.inr (Or.inl rfl))

/-- C5: a broadcast delivery attempt is non-blocking per listener on
both streams — each broadcast (`broadcastToStdout` and
`broadcastToStderr`) is a total pointwise update of the registry (each
slot is computed from that slot alone, so no sink can stall the
broadcaster or affect another registration); when a still-active sink
cannot accept the line immediately it alone is marked inactive, with
the paired sink of the same registration untouched (a stdout failure
leaves the stderr sink intact and conversely); and a sink already
marked inactive is skipped unchanged by every future delivery. -/
theorem claim_C5_nonblocking_delivery (line : String)
    (r : List Commander.StreamChannels) (i : Nat) (h : i < r.length) :
    ((Commander.broadcastToStdout line r).length = r.length) ∧
    ((Commander.broadcastToStderr line r).length = r.length) ∧
    ((Commander.broadcastToStdout line r)[i]? =
      some (Commander.deliverStdout line r[i])) ∧
    ((Commander.broadcastToStderr line r)[i]? =
      some (Commander.deliverStderr line r[i])) ∧
    ((Commander.deliverStdout line r[i]).stderr = r[i].stderr) ∧
    ((Commander.deliverStderr line r[i]).stdout = r[i].stdout) ∧
    (∀ ch : Commander.Chan, r[i].stdout = some ch → ch.active = true → ch.free = 0 →
      (Commander.deliverStdout line r[i]).stdout = some { ch with active := false }) ∧
    (∀ ch : Commander.Chan, r[i].stderr = some ch → ch.active = true → ch.free = 0 →
      (Commander.deliverStderr line r[i]).stderr = some { ch with active := false }) ∧
    (∀ ch : Commander.Chan, ch.active = false → Commander.chanDeliver line ch = ch) := by
  refine ⟨?_, ?_, ?_, ?_, ?_, ?_, ?_, ?_, ?_⟩
  · simp [Commander.broadcastToStdout]
  · simp [Commander.broadcastToStderr]
  · simp [Commander.broadcastToStdout, List.getElem?_map, List.getElem?_eq_getElem h]
  · simp [Commander.broadcastToStderr, List.getElem?_map, List.getElem?_eq_getElem h]
  · simp [Commander.deliverStdout]
  · simp [Commander.deliverStderr]
  · intro ch hch hact hfree
    simp [Commander.deliverStdout, hch, Commander.chanDeliver, hact, hfree]
  · intro ch hch hact hfree
    simp [Commander.deliverStderr, hch, Commander.chanDeliver, hact, hfree]
  · intro ch hact
    exact Commander.chanDeliver_inactive line ch hact

theorem claim_C5_nonblocking_delivery_witness :
    ((Commander.broadcastToStdout "x"
        [{ stdout := some (Commander.mkChan 0 0), stderr := some (Commander.mkChan 1 4) }]).length = 1) ∧
    ((Commander.broadcastToStderr "x"
        [{ stdout := some (Commander.mkChan 0 0), stderr := some (Commander.mkChan 1 4) }]).length = 1) ∧
    ((Commander.broadcastToStdout "x"
        [{ stdout := some (Commander.mkChan 0 0), stderr := some (Commander.mkChan 1 4) }])[0]? =
      some (Commander.deliverStdout "x"
        { stdout := some (Commander.mkChan 0 0), stderr := some (Commander.mkChan 1 4) })) ∧
    ((Commander.broadcastToStderr "x"
        [{ stdout := some (Commander.mkChan 0 0), stderr := some (Commander.mkChan 1 4) }])[0]? =
      some (Commander.deliverStderr "x"
        { stdout := some (Commander.mkChan 0 0), stderr := some (Commander.mkChan 1 4) })) :=
  ⟨(claim_C5_nonblocking_delivery "x"
      [{ stdout := some (Commander.mkChan 0 0), stderr := some (Commander.mkChan 1 4) }]
      0 (by decide)).1,
   (claim_C5_nonblocking_delivery "x"
      [{ stdout := some (Commander.mkChan 0 0), stderr := some (Commander.mkChan 1 4) }]
      0 (by decide)).2.1,
   (claim_C5_nonblocking_delivery "x"
      [{ stdout := some (Commander.mkChan 0 0), stderr := some (Commander.mkChan 1 4) }]
      0 (by decide)).2.2.1,
   (claim_C5_nonblocking_delivery "x"
      [{ stdout := some (Commander.mkChan 0 0), stderr := some (Commander.mkChan 1 4) }]
      0 (by decide)).2.2.2.1⟩

/-- C6: every listener registered via `Stream` after the process has
already produced output (the events `es1`, against any pre-existing
registry `r0`), with any combination of present or absent stdout and
stderr sinks, is tracked exactly: its registry slot holds the
registered sinks evolved only by the post-registration events `es2`; a
fresh stdout sink able to absorb `c` immediate sends receives exactly
the first `c` stdout lines broadcast after registration, in production
order, and likewise a fresh stderr sink for the stderr stream — so no
line broadcast before registration is ever received on either stream,
and a sink that can absorb every later line of its stream receives
every line produced after its registration, in order. -/
theorem claim_C6_stream_registration (r0 : List Commander.StreamChannels)
    (es1 es2 : List Commander.BEvent) (o u : Option Commander.Chan) :
    ∃ e : Commander.StreamChannels,
      (Commander.runEvents r0 (es1 ++ Commander.BEvent.register o u :: es2))[
          (Commander.runEvents r0 es1).length]? = some e ∧
      e.stdout = o.map (fun ch => Commander.chanRun ch es2) ∧
      e.stderr = u.map (fun ch => Commander.chanRunErr ch es2) ∧
      (∀ id c : Nat, o = some (Commander.mkChan id c) →
        ∃ fo : Commander.Chan, e.stdout = some fo ∧
          fo.received = (Commander.outLines es2).take c ∧
          ((Commander.outLines es2).length ≤ c →
            fo.received = Commander.outLines es2)) ∧
      (∀ id c : Nat, u = some (Commander.mkChan id c) →
        ∃ fe : Commander.Chan, e.stderr = some fe ∧
          fe.received = (Commander.errLines es2).take c ∧
          ((Commander.errLines es2).length ≤ c →
            fe.received = Commander.errLines es2)) := by
  refine ⟨{ stdout := o.map (fun ch => Commander.chanRun ch es2),
            stderr := u.map (fun ch => Commander.chanRunErr ch es2) },
    ?_, rfl, rfl, ?_, ?_⟩
  · have hsplit : Commander.runEvents r0 (es1 ++ Commander.BEvent.register o u :: es2) =
        Commander.runEvents
          (Commander.runEvents r0 es1 ++
            [({ stdout := o, stderr := u } : Commander.StreamChannels)]) es2 := by
      rw [Commander.runEvents_append]
      rfl
    have hlen : (Commander.runEvents r0 es1).length <
        (Commander.runEvents r0 es1 ++
          [({ stdout := o, stderr := u } : Commander.StreamChannels)]).length := by
      simp
    have htrack := Commander.runEvents_getElem es2
      (Commander.runEvents r0 es1 ++
        [({ stdout := o, stderr := u } : Commander.StreamChannels)])
      (Commander.runEvents r0 es1).length hlen
    have hget : (Commander.runEvents r0 es1 ++
        [({ stdout := o, stderr := u } : Commander.StreamChannels)])[
          (Commander.runEvents r0 es1).length] =
        ({ stdout := o, stderr := u } : Commander.StreamChannels) := by
      simp
    rw [hsplit, htrack, hget, Commander.entryRun_pair]
  · intro id c hoc
    refine ⟨Commander.chanRun (Commander.mkChan id c) es2, by simp [hoc], ?_, ?_⟩
    · simpa [Commander.mkChan] using
        Commander.chanRun_received es2 (Commander.mkChan id c) rfl
    · intro hle
      have h2 : (Commander.chanRun (Commander.mkChan id c) es2).received =
          (Commander.outLines es2).take c := by
        simpa [Commander.mkChan] using
          Commander.chanRun_received es2 (Commander.mkChan id c) rfl
      rw [h2, List.take_of_length_le hle]
  · intro id c huc
    refine ⟨Commander.chanRunErr (Commander.mkChan id c) es2, by simp [huc], ?_, ?_⟩
    · simpa [Commander.mkChan] using
        Commander.chanRunErr_received es2 (Commander.mkChan id c) rfl
    · intro hle
      have h2 : (Commander.chanRunErr (Commander.mkChan id c) es2).received =
          (Commander.errLines es2).take c := by
        simpa [Commander.mkChan] using
          Commander.chanRunErr_received es2 (Commander.mkChan id c) rfl
      rw [h2, List.take_of_length_le hle]

theorem claim_C6_stream_registration_witness :
    ∃ e : Commander.StreamChannels,
      (Commander.runEvents []
        ([Commander.BEvent.outLine "early", Commander.BEvent.errLine "p"] ++
          Commander.BEvent.register (some (Commander.mkChan 7 5))
              (some (Commander.mkChan 8 2)) ::
            [Commander.BEvent.outLine "a", Commander.BEvent.errLine "b",
              Commander.BEvent.outLine "c"]))[
          (Commander.runEvents []
            [Commander.BEvent.outLine "early", Commander.BEvent.errLine "p"]).length]? =
        some e ∧
      e.stdout = (some (Commander.mkChan 7 5)).map (fun ch =>
        Commander.chanRun ch
          [Commander.BEvent.outLine "a", Commander.BEvent.errLine "b",
            Commander.BEvent.outLine "c"]) ∧
      e.stderr = (some (Commander.mkChan 8 2)).map (fun ch =>
        Commander.chanRunErr ch
          [Commander.BEvent.outLine "a", Commander.BEvent.errLine "b",
            Commander.BEvent.outLine "c"]) ∧
      (∀ id c : Nat, some (Commander.mkChan 7 5) = some (Commander.mkChan id c) →
        ∃ fo : Commander.Chan, e.stdout = some fo ∧
          fo.received = (Commander.outLines
            [Commander.BEvent.outLine "a", Commander.BEvent.errLine "b",
              Commander.BEvent.outLine "c"]).take c ∧
          ((Commander.outLines
              [Commander.BEvent.outLine "a", Commander.BEvent.errLine "b",
                Commander.BEvent.outLine "c"]).length ≤ c →
            fo.received = Commander.outLines
              [Commander.BEvent.outLine "a", Commander.BEvent.errLine "b",
                Commander.BEvent.outLine "c"])) ∧
      (∀ id c : Nat, some (Commander.mkChan 8 2) = some (Commander.mkChan id c) →
        ∃ fe : Commander.Chan, e.stderr = some fe ∧
          fe.received = (Commander.errLines
            [Commander.BEvent.outLine "a", Commander.BEvent.errLine "b",
              Commander.BEvent.outLine "c"]).take c ∧
          ((Commander.errLines
              [Commander.BEvent.outLine "a", Commander.BEvent.errLine "b",
                Commander.BEvent.outLine "c"]).length ≤ c →
            fe.received = Commander.errLines
              [Commander.BEvent.outLine "a", Commander.BEvent.errLine "b",
                Commander.BEvent.outLine "c"])) :=
  claim_C6_stream_registration []
    [Commander.BEvent.outLine "early", Commander.BEvent.errLine "p"]
    [Commander.BEvent.outLine "a", Commander.BEvent.errLine "b",
      Commander.BEvent.outLine "c"]
    (some (Commander.mkChan 7 5)) (some (Commander.mkChan 8 2))

/-- C10: every registered sink channel is closed at most once over the
lifetime of the handle: the first invocation of `closeStreamChannels`
closes the still-registered active sinks and clears the registry to
nil, so the second invocation (whether it comes from `Stop` or from the
exit of the broadcaster goroutine) finds no sinks and closes nothing; a
sink already marked inactive is skipped by the close; and when the
registered channel ids are pairwise distinct, the two invocations
together close each channel at most once. -/
theorem claim_C10_close_at_most_once (r : List Commander.StreamChannels) :
    ((Commander.closeStreamChannels r).2 = []) ∧
    (Commander.closeStreamChannels ((Commander.closeStreamChannels r).2) = ([], [])) ∧
    (∀ ch : Commander.Chan, ch.active = false →
      Commander.closeOps { stdout := some ch, stderr := none } = [] ∧
      Commander.closeOps { stdout := none, stderr := some ch } = []) ∧
    ((Commander.closeStreamChannels r).1.Nodup →
      ((Commander.closeStreamChannels r).1 ++
        (Commander.closeStreamChannels ((Commander.closeStreamChannels r).2)).1).Nodup) := by
  refine ⟨rfl, rfl, ?_, ?_⟩
  · intro ch hact
    constructor <;> simp [Commander.closeOps, hact]
  · intro hnd
    simpa [Commander.closeStreamChannels] using hnd

theorem claim_C10_close_at_most_once_witness :
    ((Commander.closeStreamChannels
        [{ stdout := some (Commander.mkChan 0 1), stderr := some (Commander.mkChan 1 1) },
         { stdout := none, stderr := some (Commander.mkChan 2 1) }]).1 ++
      (Commander.closeStreamChannels
        ((Commander.closeStreamChannels
          [{ stdout := some (Commander.mkChan 0 1), stderr := some (Commander.mkChan 1 1) },
           { stdout := none, stderr := some (Commander.mkChan 2 1) }]).2)).1).Nodup :=
  (claim_C10_close_at_most_once
    [{ stdout := some (Commander.mkChan 0 1), stderr := some (Commander.mkChan 1 1) },
     { stdout := none, stderr := some (Commander.mkChan 2 1) }]).2.2.2
    (by decide)

/-- C1 (modelled from the spec; the Executor implementation file is not
among the sources): while a job holds the Execution Slot, every
concurrent `Exec` entry fails its test-and-set, returns the busy error
immediately and leaves no trace (no queuing); from an idle slot, at
most one of any number of concurrent test-and-set attempts acquires the
slot; the call that acquires the slot clears it unconditionally on
return whatever the job outcome — success, timeout or error — so a
subsequent `Exec` is not rejected as busy. -/
theorem claim_C1_single_flight_slot (n : Nat) (o : Commander.Outcome) :
    ((Gorpitx.runAcquires { isExecuting := true } n).2 = 0) ∧
    ((Gorpitx.runAcquires { isExecuting := false } n).2 ≤ 1) ∧
    (∀ e : Gorpitx.Executor, e.isExecuting = true →
      Gorpitx.execCall e o = (e, Gorpitx.ExecResult.busy)) ∧
    (∀ e : Gorpitx.Executor, (Gorpitx.execCall e o).2 ≠ Gorpitx.ExecResult.busy →
      ((Gorpitx.execCall e o).1).isExecuting = false) ∧
    (Gorpitx.execCall { isExecuting := false } o =
      ({ isExecuting := false }, Gorpitx.ExecResult.completed o)) ∧
    (Gorpitx.tryAcquire ((Gorpitx.execCall { isExecuting := false } o).1) =
      ({ isExecuting := true }, true)) := by
  refine ⟨?_, ?_, ?_, ?_, ?_, ?_⟩
  · exact congrArg Prod.snd (Gorpitx.runAcquires_busy n)
  · cases n with
    | zero => simp [Gorpitx.runAcquires]
    | succ m => simp [Gorpitx.runAcquires_idle m]
  · intro e he
    simp [Gorpitx.execCall, Gorpitx.tryAcquire, he]
  · intro e hne
    by_cases he : e.isExecuting
    · exact absurd (by simp [Gorpitx.execCall, Gorpitx.tryAcquire, he]) hne
    · simp [Gorpitx.execCall, Gorpitx.tryAcquire, he, Gorpitx.releaseSlot]
  · simp [Gorpitx.execCall, Gorpitx.tryAcquire, Gorpitx.releaseSlot]
  · simp [Gorpitx.execCall, Gorpitx.tryAcquire, Gorpitx.releaseSlot]

theorem claim_C1_single_flight_slot_witness :
    Gorpitx.execCall { isExecuting := true } Commander.Outcome.ok =
      ({ isExecuting := true }, Gorpitx.ExecResult.busy) :=
  (claim_C1_single_flight_slot 2 Commander.Outcome.ok).2.2.1
    { isExecuting := true } rfl

/-- C9 (modelled from the spec; the Executor implementation file is not
among the sources): while the Executor is idle, `Stop` returns the
not-executing error without touching the process-handle state, and
`StreamOutputs` is a safe no-op — it returns without registering
anything and without closing or consuming the channels of the caller,
exactly as the idle-path unit tests assert. -/
theorem claim_C9_idle_stop_and_stream (e : Gorpitx.Executor)
    (h : e.isExecuting = false) (t : Int) (env : Commander.KillEnv)
    (s : Commander.StopState) (stdout stderr : Option Commander.Chan)
    (reg : List Commander.StreamChannels) :
    Gorpitx.rpitxStop e t env s =
      (s, some Gorpitx.RpitxErr.errNotExecuting, Commander.Outcome.ok) ∧
    Gorpitx.rpitxStreamOutputs e stdout stderr reg = reg := by
  constructor
  · simp [Gorpitx.rpitxStop, h]
  · simp [Gorpitx.rpitxStreamOutputs, h]

theorem claim_C9_idle_stop_and_stream_witness :
    Gorpitx.rpitxStop { isExecuting := false } 1
        { hasPid := false, termSignalOk := false, exitsWithinGrace := false,
          graceWaitErr := Commander.WaitErr.ok, killReqProcessDone := false,
          killReqOtherErr := false, killWaitErr := Commander.WaitErr.ok }
        Commander.initStopState =
      (Commander.initStopState, some Gorpitx.RpitxErr.errNotExecuting,
        Commander.Outcome.ok) ∧
    Gorpitx.rpitxStreamOutputs { isExecuting := false }
        (some (Commander.mkChan 0 4)) (some (Commander.mkChan 1 4)) [] = [] :=
  claim_C9_idle_stop_and_stream { isExecuting := false } rfl 1
    { hasPid := false, termSignalOk := false, exitsWithinGrace := false,
      graceWaitErr := Commander.WaitErr.ok, killReqProcessDone := false,
      killReqOtherErr := false, killWaitErr := Commander.WaitErr.ok }
    Commander.initStopState (some (Commander.mkChan 0 4)) (some (Commander.mkChan 1 4)) []
